import Mathlib

/-!
Shallow embedding of the CursorSoftphone closed-captioning code.

Two source units are modelled:

* `src/unnamed/part_000` — the `CaptionProcessor` audio-worklet class: a
  voice-activity detector (mean absolute amplitude against a fixed
  threshold with a hangover counter) plus a fixed-size accumulation
  buffer that forwards full windows to the main thread while speech is
  detected.

* `src/captions.js` — the `ClosedCaptioning` controller class: lifecycle
  (`initialize` / `stop`), the bounded caption transcript
  (`updateCaption`, `updateSpeakerStatus`), and the restart-on-error
  paths for the two speech-recognition sessions.

Audio samples (JS `Float32Array` entries, IEEE doubles in the arithmetic)
are modelled as rationals; `0.01` is the exact rational `1/100`.
DOM and browser-API side effects carry no transcript state; fallible
browser calls (`.start()`, worklet setup, …) are abstracted as boolean
throw-flags supplied by an environment record, and `port.postMessage`
calls are recorded in an event list on the worklet state.
-/

namespace CursorSoftphone

/-! ### Worklet: `CaptionProcessor` (src/unnamed/part_000) -/

/-- A message posted on the worklet port (`this.port.postMessage(...)`).
`initialized` is the startup message from `init()`; `speechStart` /
`speechEnd` carry the current audio level; `processAudio` carries the
copied buffer (`this.buffer.slice(0)`). -/
inductive WMsg where
  | initialized : WMsg
  | speechStart (level : ℚ) : WMsg
  | speechEnd (level : ℚ) : WMsg
  | processAudio (audioBuffer : List ℚ) : WMsg
  deriving DecidableEq

/-- The mutable fields of `CaptionProcessor` set in its constructor,
plus the list of messages posted so far. -/
structure WorkletState where
  bufferSize : Nat
  buffer : List ℚ
  bufferIndex : Nat
  silenceThreshold : ℚ
  silenceFrames : Nat
  maxSilenceFrames : Nat
  isActive : Bool
  msgs : List WMsg
  deriving DecidableEq

/-- Constructor state: `bufferSize = 4096`, zero-filled `Float32Array`
buffer, `silenceThreshold = 0.01`, `maxSilenceFrames = 30`, inactive;
`init()` has posted the `initialized` message. -/
def initWorklet : WorkletState :=
  { bufferSize := 4096
    buffer := List.replicate 4096 0
    bufferIndex := 0
    silenceThreshold := 1 / 100
    silenceFrames := 0
    maxSilenceFrames := 30
    isActive := false
    msgs := [WMsg.initialized] }

/-- `audioLevel`: sum of absolute sample values divided by the block
length (`audioLevel += Math.abs(input[i]); audioLevel /= input.length`). -/
def audioLevel (input : List ℚ) : ℚ :=
  (input.map (fun x => |x|)).sum / input.length

/-- The speech/silence detection section of `process` (lines 53–81):
above the threshold the quiet counter resets and an inactive detector
activates (posting `speech_start`); otherwise the quiet counter is
incremented and an active detector deactivates once the counter exceeds
`maxSilenceFrames` (posting `speech_end`). -/
def detectUpdate (s : WorkletState) (input : List ℚ) : WorkletState :=
  let lvl := audioLevel input
  if s.silenceThreshold < lvl then
    let s1 := { s with silenceFrames := 0 }
    if s1.isActive = false then
      { s1 with isActive := true, msgs := s1.msgs ++ [WMsg.speechStart lvl] }
    else s1
  else
    let s1 := { s with silenceFrames := s.silenceFrames + 1 }
    if s1.isActive = true ∧ s1.maxSilenceFrames < s1.silenceFrames then
      { s1 with isActive := false, msgs := s1.msgs ++ [WMsg.speechEnd lvl] }
    else s1

/-- One iteration of the buffering loop (lines 84–92): write the sample
at `bufferIndex`, increment the index; on reaching `bufferSize` run
`processBuffer()` (post a copy of the buffer only while active) and
reset the index to `0`. -/
def bufferStep (s : WorkletState) (x : ℚ) : WorkletState :=
  let s1 := { s with buffer := s.buffer.set s.bufferIndex x,
                     bufferIndex := s.bufferIndex + 1 }
  if s1.bufferSize ≤ s1.bufferIndex then
    let s2 := if s1.isActive then
        { s1 with msgs := s1.msgs ++ [WMsg.processAudio s1.buffer] }
      else s1
    { s2 with bufferIndex := 0 }
  else s1

/-- `process(inputs, outputs)` for one block: an empty (or missing)
input returns immediately; otherwise run activity detection, then
buffer each sample in order.  (The pass-through copy of the input to
the output channels touches no processor state and is not modelled.) -/
def process (s : WorkletState) (input : List ℚ) : WorkletState :=
  if input.length = 0 then s
  else input.foldl bufferStep (detectUpdate s input)

/-- Feeding a sequence of blocks to the processor. -/
def runWorklet (s : WorkletState) (blocks : List (List ℚ)) : WorkletState :=
  blocks.foldl process s

/-- The samples accumulated in the window since the last reset:
`buffer[0 .. bufferIndex)`. -/
def pendingWindow (s : WorkletState) : List ℚ :=
  s.buffer.take s.bufferIndex

/-- The consecutive length-`n` chunks of a sample stream (the windows the
processor completes while consuming it). -/
def fullChunks (n : Nat) (l : List ℚ) : List (List ℚ) :=
  (List.range (l.length / n)).map (fun k => (l.drop (n * k)).take n)

/-- Well-formedness maintained by the worklet: positive window capacity,
the backing array has exactly that length, and the write index is in
range. -/
def wfWorklet (s : WorkletState) : Prop :=
  0 < s.bufferSize ∧ s.buffer.length = s.bufferSize ∧ s.bufferIndex < s.bufferSize

/-- Reference chunking machine used to relate the buffering loop to
`fullChunks`: carry the pending partial window, close a chunk each time
it reaches length `n`. -/
def chunkRun (n : Nat) : List ℚ → List ℚ → List ℚ × List (List ℚ)
  | p, [] => (p, [])
  | p, x :: rest =>
      if p.length + 1 = n then
        let r := chunkRun n [] rest
        (r.1, (p ++ [x]) :: r.2)
      else chunkRun n (p ++ [x]) rest

/-! ### Controller: `ClosedCaptioning` (src/captions.js) -/

/-- One transcript entry (`{speaker, text}`). -/
structure Caption where
  speaker : String
  text : String
  deriving DecidableEq

/-- The transcript-relevant state of a `ClosedCaptioning` instance.
Opaque browser handles (`speechRecognition`, `remoteSpeechRecognition`)
are tracked only by whether they are non-null; `hasCaptionsElement`
records whether the DOM query for the `.captions` element succeeds
(the constructor's `ensureCaptionContainer` creates it). -/
structure CCState where
  maxHistoryLength : Nat
  isActive : Bool
  captionHistory : List Caption
  currentSpeaker : Option String
  hasCaptionsElement : Bool
  hasSpeechRecognition : Bool
  hasRemoteSpeechRecognition : Bool
  deriving DecidableEq

/-- Constructor state with a configured `maxHistoryLength` (default 5):
inactive, empty history, no current speaker, caption container created,
no recognition sessions yet. -/
def initCC (maxHistoryLength : Nat) : CCState :=
  { maxHistoryLength := maxHistoryLength
    isActive := false
    captionHistory := []
    currentSpeaker := none
    hasCaptionsElement := true
    hasSpeechRecognition := false
    hasRemoteSpeechRecognition := false }

/-- JS `String.prototype.trim`: strip leading and trailing whitespace.
Written over the character list so it evaluates by kernel reduction. -/
def jsTrim (t : String) : String :=
  String.mk
    (((t.data.dropWhile Char.isWhitespace).reverse.dropWhile
        Char.isWhitespace).reverse)

/-- `updateCaption(text, speaker)` (lines 341–373): return on blank
text (`!text || text.trim() === ''`) or a missing captions element; if
the tracked `currentSpeaker` differs from `speaker`, push a new trimmed
entry and `shift()` the oldest once the length exceeds
`maxHistoryLength`; otherwise overwrite the text of the last entry (or
push one when the history is empty).  `renderCaptions()` touches no
modelled state. -/
def updateCaption (s : CCState) (text speaker : String) : CCState :=
  if text = "" ∨ jsTrim text = "" then s
  else if s.hasCaptionsElement = false then s
  else if s.currentSpeaker ≠ some speaker then
    let h1 := s.captionHistory ++ [⟨speaker, jsTrim text⟩]
    let h2 := if s.maxHistoryLength < h1.length then h1.tail else h1
    { s with currentSpeaker := some speaker, captionHistory := h2 }
  else
    match s.captionHistory.getLast? with
    | some last =>
        { s with captionHistory :=
            s.captionHistory.dropLast ++ [{ last with text := jsTrim text }] }
    | none =>
        { s with captionHistory := [⟨speaker, jsTrim text⟩] }

/-- `updateSpeakerStatus(speaker)` (lines 379–384): retarget the tracked
current speaker; the transcript itself is untouched. -/
def updateSpeakerStatus (s : CCState) (speaker : String) : CCState :=
  if s.currentSpeaker ≠ some speaker then { s with currentSpeaker := some speaker }
  else s

/-- `stop()` (lines 422–463): clear the active flag, stop both sessions
(the handle fields are not nulled), hide the container, clear the
history and the current speaker. -/
def stop (s : CCState) : CCState :=
  { s with isActive := false, captionHistory := [], currentSpeaker := none }

/-- The transcript-mutating entry points, for quantifying over
reachable controller states. -/
inductive CCCmd where
  | update (text speaker : String) : CCCmd
  | speakerStatus (speaker : String) : CCCmd
  | stopCall : CCCmd
  deriving DecidableEq

def ccStep (s : CCState) (c : CCCmd) : CCState :=
  match c with
  | CCCmd.update text speaker => updateCaption s text speaker
  | CCCmd.speakerStatus speaker => updateSpeakerStatus s speaker
  | CCCmd.stopCall => stop s

def runCC (s : CCState) (cs : List CCCmd) : CCState :=
  cs.foldl ccStep s

/-! #### `initialize` and the error paths

Browser-API calls that can throw are abstracted as boolean throw-flags
in an environment record; each modelled step returns the state after
its side effects together with whether it threw. -/

/-- Which browser operations are available / throw during `initialize`. -/
structure InitEnv where
  showContainerThrows : Bool
  srSupported : Bool
  localStartThrows : Bool
  remoteAudioSetupThrows : Bool
  remoteStartThrows : Bool
  audioWorkletSupported : Bool
  workletSetupThrows : Bool
  deriving DecidableEq

/-- `initializeSpeechRecognition()` (lines 115–157): without API support
it warns and returns (no throw, no session); otherwise the session is
created and configured, and `start()` may throw. -/
def initializeSpeechRecognition (env : InitEnv) (s : CCState) : CCState × Bool :=
  if env.srSupported = false then (s, false)
  else ({ s with hasSpeechRecognition := true }, env.localStartThrows)

/-- `initializeRemoteTranscription(remoteStream)` (lines 163–251), called
only with a stream present: the audio-context / media-stream plumbing may
throw; without API support it warns and returns; otherwise the remote
session is created, `start()` may throw, and when the audio worklet is
supported its setup may throw.  The internal `catch` logs and rethrows,
so a throw anywhere in the body propagates to `initialize`. -/
def initializeRemoteTranscription (env : InitEnv) (s : CCState) : CCState × Bool :=
  if env.remoteAudioSetupThrows then (s, true)
  else if env.srSupported = false then (s, false)
  else
    let s1 := { s with hasRemoteSpeechRecognition := true }
    if env.remoteStartThrows then (s1, true)
    else (s1, env.audioWorkletSupported ∧ env.workletSetupThrows)

/-- `initialize(localStream, remoteStream)` (lines 45–68; the source name
collides with a reserved word, hence the suffix): show the container, set
up local recognition, set up remote transcription when a remote stream
exists, then set `isActive` and return `true`; any throw is caught and
`false` is returned. -/
def initializeCaptionSystem (env : InitEnv) (hasRemoteStream : Bool) (s : CCState) :
    Bool × CCState :=
  if env.showContainerThrows then (false, s)
  else
    let r1 := initializeSpeechRecognition env s
    if r1.2 then (false, r1.1)
    else if hasRemoteStream then
      let r2 := initializeRemoteTranscription env r1.1
      if r2.2 then (false, r2.1)
      else (true, { r2.1 with isActive := true })
    else (true, { r1.1 with isActive := true })

/-- Which `.start()` invocations a restart path performs: the immediate
attempt inside the first `try`, and the delayed attempt inside the
1-second `setTimeout` retry. -/
structure RestartTrace where
  immediateStart : Bool
  delayedStart : Bool
  deriving DecidableEq

/-- `restartSpeechRecognition()` (lines 256–274).  `sNow` is the
controller state when the method runs, `sLater` the state when the
delayed retry fires (`stop()` may have run in between);
`firstStartThrows` says whether the immediate `start()` throws. -/
def restartSpeechRecognition (sNow sLater : CCState)
    (firstStartThrows : Bool) : RestartTrace :=
  if sNow.isActive = true ∧ sNow.hasSpeechRecognition = true then
    if firstStartThrows then
      { immediateStart := true, delayedStart := sLater.isActive }
    else { immediateStart := true, delayedStart := false }
  else { immediateStart := false, delayedStart := false }

/-- `restartRemoteSpeechRecognition()` (lines 279–297): identical shape,
guarded on the remote session handle. -/
def restartRemoteSpeechRecognition (sNow sLater : CCState)
    (firstStartThrows : Bool) : RestartTrace :=
  if sNow.isActive = true ∧ sNow.hasRemoteSpeechRecognition = true then
    if firstStartThrows then
      { immediateStart := true, delayedStart := sLater.isActive }
    else { immediateStart := true, delayedStart := false }
  else { immediateStart := false, delayedStart := false }

/-- The local `onerror` handler (lines 137–146): log, return on
`'no-speech'`, otherwise attempt a restart.  The handler mutates no
controller state; its observable effect is the restart trace. -/
def onLocalRecognitionError (sNow sLater : CCState) (err : String)
    (firstStartThrows : Bool) : CCState × RestartTrace :=
  if err = "no-speech" then
    (sNow, { immediateStart := false, delayedStart := false })
  else (sNow, restartSpeechRecognition sNow sLater firstStartThrows)

/-- The remote `onerror` handler (lines 212–218): log, and restart only
when the error is neither `'audio-capture'` nor `'not-allowed'`. -/
def onRemoteRecognitionError (sNow sLater : CCState) (err : String)
    (firstStartThrows : Bool) : CCState × RestartTrace :=
  if err ≠ "audio-capture" ∧ err ≠ "not-allowed" then
    (sNow, restartRemoteSpeechRecognition sNow sLater firstStartThrows)
  else (sNow, { immediateStart := false, delayedStart := false })

/-! ### Worklet lemmas -/

lemma bufferStep_fields (s : WorkletState) (x : ℚ) :
    (bufferStep s x).isActive = s.isActive ∧
    (bufferStep s x).silenceFrames = s.silenceFrames ∧
    (bufferStep s x).silenceThreshold = s.silenceThreshold ∧
    (bufferStep s x).maxSilenceFrames = s.maxSilenceFrames ∧
    (bufferStep s x).bufferSize = s.bufferSize := by
  simp only [bufferStep]
  split <;> (try split) <;> simp

lemma foldl_bufferStep_fields (b : List ℚ) (s : WorkletState) :
    ((b.foldl bufferStep s).isActive = s.isActive ∧
     (b.foldl bufferStep s).silenceFrames = s.silenceFrames ∧
     (b.foldl bufferStep s).silenceThreshold = s.silenceThreshold ∧
     (b.foldl bufferStep s).maxSilenceFrames = s.maxSilenceFrames ∧
     (b.foldl bufferStep s).bufferSize = s.bufferSize) := by
  induction b generalizing s with
  | nil => simp
  | cons x r ih =>
    obtain ⟨h1, h2, h3, h4, h5⟩ := ih (bufferStep s x)
    obtain ⟨g1, g2, g3, g4, g5⟩ := bufferStep_fields s x
    exact ⟨h1.trans g1, h2.trans g2, h3.trans g3, h4.trans g4, h5.trans g5⟩

lemma detectUpdate_fields (s : WorkletState) (b : List ℚ) :
    (detectUpdate s b).buffer = s.buffer ∧
    (detectUpdate s b).bufferIndex = s.bufferIndex ∧
    (detectUpdate s b).bufferSize = s.bufferSize ∧
    (detectUpdate s b).silenceThreshold = s.silenceThreshold ∧
    (detectUpdate s b).maxSilenceFrames = s.maxSilenceFrames := by
  simp only [detectUpdate]
  split <;> (try split) <;> simp

lemma process_activity (s : WorkletState) (b : List ℚ) (hb : b ≠ []) :
    (process s b).isActive = (detectUpdate s b).isActive ∧
    (process s b).silenceFrames = (detectUpdate s b).silenceFrames := by
  have hlen : ¬ b.length = 0 := by simpa using hb
  simp only [process, if_neg hlen]
  exact ⟨(foldl_bufferStep_fields b _).1, (foldl_bufferStep_fields b _).2.1⟩

lemma process_config (s : WorkletState) (b : List ℚ) :
    (process s b).silenceThreshold = s.silenceThreshold ∧
    (process s b).maxSilenceFrames = s.maxSilenceFrames ∧
    (process s b).bufferSize = s.bufferSize := by
  by_cases hlen : b.length = 0
  · simp [process, hlen]
  · simp only [process, if_neg hlen]
    obtain ⟨_, _, h3, h4, h5⟩ := foldl_bufferStep_fields b (detectUpdate s b)
    obtain ⟨_, _, g3, g4, g5⟩ := detectUpdate_fields s b
    exact ⟨h3.trans g4, h4.trans g5, h5.trans g3⟩

lemma runWorklet_config (blocks : List (List ℚ)) (s : WorkletState) :
    (runWorklet s blocks).silenceThreshold = s.silenceThreshold ∧
    (runWorklet s blocks).maxSilenceFrames = s.maxSilenceFrames := by
  induction blocks generalizing s with
  | nil => exact ⟨rfl, rfl⟩
  | cons b r ih =>
    obtain ⟨h1, h2⟩ := ih (process s b)
    obtain ⟨g1, g2, _⟩ := process_config s b
    exact ⟨h1.trans g1, h2.trans g2⟩

lemma detectUpdate_char (s : WorkletState) (b : List ℚ) :
    (s.silenceThreshold < audioLevel b →
      (detectUpdate s b).isActive = true ∧ (detectUpdate s b).silenceFrames = 0) ∧
    (audioLevel b ≤ s.silenceThreshold →
      (detectUpdate s b).silenceFrames = s.silenceFrames + 1 ∧
      ((detectUpdate s b).isActive = false ↔
        (s.isActive = false ∨ s.maxSilenceFrames < s.silenceFrames + 1))) := by
  constructor
  · intro hlt
    by_cases hA : s.isActive = false <;>
      simp [detectUpdate, hlt, hA]
  · intro hle
    have hnlt : ¬ s.silenceThreshold < audioLevel b := not_lt.mpr hle
    by_cases hA : s.isActive = true <;>
      by_cases hM : s.maxSilenceFrames < s.silenceFrames + 1 <;>
        simp [detectUpdate, hnlt, hA, hM]

lemma audioLevel_zero_block : audioLevel [(0 : ℚ)] = 0 := by
  simp [audioLevel]

lemma runWorklet_silent (k : Nat) :
    ∀ s : WorkletState, s.silenceThreshold = 1 / 100 → s.maxSilenceFrames = 30 →
      s.isActive = true → s.silenceFrames + k ≤ 30 →
      (runWorklet s (List.replicate k [0])).isActive = true ∧
      (runWorklet s (List.replicate k [0])).silenceFrames = s.silenceFrames + k := by
  induction k with
  | zero => intro s _ _ ha _; exact ⟨ha, rfl⟩
  | succ n ih =>
    intro s hθ hm ha hk
    have hbne : ([(0 : ℚ)] : List ℚ) ≠ [] := by simp
    have hle : audioLevel [(0 : ℚ)] ≤ s.silenceThreshold := by
      rw [audioLevel_zero_block, hθ]; norm_num
    have hchar := (detectUpdate_char s [0]).2 hle
    have hno : ¬ (s.isActive = false ∨ s.maxSilenceFrames < s.silenceFrames + 1) := by
      rw [ha, hm]
      simp only [Bool.true_eq_false, false_or, not_lt]
      omega
    have hdact : (detectUpdate s [0]).isActive = true := by
      rcases Bool.eq_false_or_eq_true (detectUpdate s [0]).isActive with hT | hF
      · exact hT
      · exact absurd (hchar.2.mp hF) hno
    have hact : (process s [0]).isActive = true :=
      ((process_activity s [0] hbne).1).trans hdact
    have hfr : (process s [0]).silenceFrames = s.silenceFrames + 1 :=
      ((process_activity s [0] hbne).2).trans hchar.1
    have hstep : runWorklet s (List.replicate (n + 1) [0]) =
        runWorklet (process s [0]) (List.replicate n [0]) := by
      rw [List.replicate_succ]; rfl
    obtain ⟨i1, i2⟩ := ih (process s [0])
      (((process_config s [0]).1).trans hθ)
      (((process_config s [0]).2.1).trans hm)
      hact (by omega)
    refine ⟨by rw [hstep]; exact i1, ?_⟩
    rw [hstep, i2, hfr]
    omega

lemma runWorklet_silent31 (s : WorkletState) (hθ : s.silenceThreshold = 1 / 100)
    (hm : s.maxSilenceFrames = 30) (ha : s.isActive = true)
    (hf : s.silenceFrames = 0) :
    (runWorklet s (List.replicate 31 [0])).isActive = false := by
  have h30 := runWorklet_silent 30 s hθ hm ha (by omega)
  have hsplit : List.replicate 31 [(0 : ℚ)] =
      List.replicate 30 [(0 : ℚ)] ++ [[0]] := by
    rw [show (31 : Nat) = 30 + 1 from rfl, List.replicate_succ']
  rw [hsplit]
  have happ : runWorklet s (List.replicate 30 [(0 : ℚ)] ++ [[0]]) =
      runWorklet (runWorklet s (List.replicate 30 [0])) [[0]] := by
    unfold runWorklet; rw [List.foldl_append]
  rw [happ]
  have htθ : (runWorklet s (List.replicate 30 [0])).silenceThreshold = 1 / 100 :=
    ((runWorklet_config _ s).1).trans hθ
  have htm : (runWorklet s (List.replicate 30 [0])).maxSilenceFrames = 30 :=
    ((runWorklet_config _ s).2).trans hm
  have htf : (runWorklet s (List.replicate 30 [0])).silenceFrames = 30 := by
    rw [h30.2, hf]
  have hle : audioLevel [(0 : ℚ)] ≤
      (runWorklet s (List.replicate 30 [0])).silenceThreshold := by
    rw [audioLevel_zero_block, htθ]; norm_num
  have hchar := (detectUpdate_char (runWorklet s (List.replicate 30 [0])) [0]).2 hle
  have hone : runWorklet (runWorklet s (List.replicate 30 [0])) [[0]] =
      process (runWorklet s (List.replicate 30 [0])) [0] := by
    unfold runWorklet
    rw [List.foldl_cons, List.foldl_nil]
  rw [hone, (process_activity _ [0] (by simp)).1]
  exact hchar.2.mpr (Or.inr (by rw [htm, htf]; omega))

lemma bufferStep_full (s : WorkletState) (x : ℚ) (h : s.bufferIndex + 1 = s.bufferSize) :
    bufferStep s x =
      { s with buffer := s.buffer.set s.bufferIndex x,
               bufferIndex := 0,
               msgs := if s.isActive = true then
                   s.msgs ++ [WMsg.processAudio (s.buffer.set s.bufferIndex x)]
                 else s.msgs } := by
  obtain ⟨n, buf, i, θ, f, m, a, ms⟩ := s
  dsimp at h ⊢
  have hc : n ≤ i + 1 := by omega
  by_cases hA : a = true <;> simp [bufferStep, hc, hA]

lemma bufferStep_notfull (s : WorkletState) (x : ℚ) (h : s.bufferIndex + 1 < s.bufferSize) :
    bufferStep s x =
      { s with buffer := s.buffer.set s.bufferIndex x,
               bufferIndex := s.bufferIndex + 1 } := by
  obtain ⟨n, buf, i, θ, f, m, a, ms⟩ := s
  dsimp at h ⊢
  have hc : ¬ n ≤ i + 1 := by omega
  simp [bufferStep, hc]

lemma take_set_succ (l : List ℚ) (i : Nat) (x : ℚ) (h : i < l.length) :
    (l.set i x).take (i + 1) = l.take i ++ [x] := by
  rw [List.set_eq_take_cons_drop x h, List.take_append_eq_append_take]
  have hlen : (l.take i).length = i := by
    rw [List.length_take]; exact Nat.min_eq_left (by omega)
  have h1 : i + 1 - i = 1 := by omega
  rw [hlen, h1, List.take_take, Nat.min_eq_right (by omega : i ≤ i + 1)]
  simp

lemma set_last_eq_append (l : List ℚ) (i : Nat) (x : ℚ) (h : i + 1 = l.length) :
    l.set i x = l.take i ++ [x] := by
  rw [List.set_eq_take_cons_drop x (by omega)]
  rw [List.drop_eq_nil_of_le (by omega : l.length ≤ i + 1)]

lemma foldl_bufferStep_spec (b : List ℚ) :
    ∀ s : WorkletState, wfWorklet s →
      pendingWindow (b.foldl bufferStep s) =
        (chunkRun s.bufferSize (pendingWindow s) b).1 ∧
      (b.foldl bufferStep s).bufferIndex =
        (chunkRun s.bufferSize (pendingWindow s) b).1.length ∧
      (b.foldl bufferStep s).msgs = s.msgs ++
        (if s.isActive = true
          then (chunkRun s.bufferSize (pendingWindow s) b).2.map WMsg.processAudio
          else []) ∧
      wfWorklet (b.foldl bufferStep s) := by
  induction b with
  | nil =>
    intro s hwf
    obtain ⟨h0, hlen, hidx⟩ := hwf
    refine ⟨rfl, ?_, ?_, ⟨h0, hlen, hidx⟩⟩
    · rw [List.foldl_nil]
      simp only [chunkRun, pendingWindow, List.length_take]
      exact (Nat.min_eq_left (by omega)).symm
    · by_cases hA : s.isActive = true <;> simp [chunkRun, hA]
  | cons x rest ih =>
    intro s hwf
    obtain ⟨h0, hlen, hidx⟩ := hwf
    have hplen : (pendingWindow s).length = s.bufferIndex := by
      rw [pendingWindow, List.length_take]; exact Nat.min_eq_left (by omega)
    rw [List.foldl_cons]
    by_cases hfull : s.bufferIndex + 1 = s.bufferSize
    · have hstep := bufferStep_full s x hfull
      have hchunk : s.buffer.set s.bufferIndex x = pendingWindow s ++ [x] :=
        set_last_eq_append s.buffer s.bufferIndex x (by omega)
      have hwt : wfWorklet (bufferStep s x) := by
        rw [hstep]
        exact ⟨h0, by simpa using hlen, h0⟩
      have ht1 : pendingWindow (bufferStep s x) = [] := by
        rw [hstep]; simp [pendingWindow]
      have ht2 : (bufferStep s x).bufferSize = s.bufferSize := by
        rw [hstep]
      have ht3 : (bufferStep s x).isActive = s.isActive := by
        rw [hstep]
      have ht4 : (bufferStep s x).msgs =
          if s.isActive = true then
            s.msgs ++ [WMsg.processAudio (pendingWindow s ++ [x])]
          else s.msgs := by
        rw [hstep, hchunk]
      have hbranch : chunkRun s.bufferSize (pendingWindow s) (x :: rest) =
          ((chunkRun s.bufferSize [] rest).1,
            (pendingWindow s ++ [x]) :: (chunkRun s.bufferSize [] rest).2) := by
        simp [chunkRun, hplen, hfull]
      obtain ⟨i1, i2, i3, i4⟩ := ih (bufferStep s x) hwt
      rw [ht2, ht1] at i1 i2
      rw [ht2, ht1, ht3, ht4] at i3
      refine ⟨?_, ?_, ?_, i4⟩
      · rw [i1, hbranch]
      · rw [i2, hbranch]
      · rw [i3, hbranch]
        by_cases hA : s.isActive = true <;> simp [hA]
    · have hlt : s.bufferIndex + 1 < s.bufferSize := by omega
      have hstep := bufferStep_notfull s x hlt
      have hwt : wfWorklet (bufferStep s x) := by
        rw [hstep]
        exact ⟨h0, by simpa using hlen, by simpa using hlt⟩
      have ht1 : pendingWindow (bufferStep s x) = pendingWindow s ++ [x] := by
        rw [hstep]
        show (s.buffer.set s.bufferIndex x).take (s.bufferIndex + 1) =
          s.buffer.take s.bufferIndex ++ [x]
        exact take_set_succ s.buffer s.bufferIndex x (by omega)
      have ht2 : (bufferStep s x).bufferSize = s.bufferSize := by
        rw [hstep]
      have ht3 : (bufferStep s x).isActive = s.isActive := by
        rw [hstep]
      have ht4 : (bufferStep s x).msgs = s.msgs := by
        rw [hstep]
      have hbranch : chunkRun s.bufferSize (pendingWindow s) (x :: rest) =
          chunkRun s.bufferSize (pendingWindow s ++ [x]) rest := by
        simp [chunkRun, hplen, hfull]
      obtain ⟨i1, i2, i3, i4⟩ := ih (bufferStep s x) hwt
      rw [ht2, ht1] at i1 i2
      rw [ht2, ht1, ht3, ht4] at i3
      exact ⟨by rw [i1, hbranch], by rw [i2, hbranch], by rw [i3, hbranch], i4⟩

lemma fullChunks_cons (n : Nat) (c l : List ℚ) (hc : c.length = n) (hn : 0 < n) :
    fullChunks n (c ++ l) = c :: fullChunks n l := by
  unfold fullChunks
  have hlen : (c ++ l).length = l.length + n := by simp [hc]; omega
  rw [hlen, Nat.add_div_right l.length hn, List.range_succ_eq_map, List.map_cons,
    List.map_map]
  congr 1
  · rw [Nat.mul_zero, List.drop_zero]
    exact List.take_left' hc
  · apply List.map_congr_left
    intro k _
    simp only [Function.comp_apply]
    have hsh : n * (k + 1) = c.length + n * k := by rw [hc]; ring
    rw [hsh, List.drop_append]

lemma drop_chunks_cons (n : Nat) (c l : List ℚ) (hc : c.length = n) (hn : 0 < n) :
    (c ++ l).drop (n * ((c ++ l).length / n)) = l.drop (n * (l.length / n)) := by
  have hlen : (c ++ l).length = l.length + n := by simp [hc]; omega
  rw [hlen, Nat.add_div_right l.length hn]
  have hsh : n * (l.length / n + 1) = c.length + n * (l.length / n) := by
    rw [hc]; ring
  rw [hsh, List.drop_append]

lemma chunkRun_spec (n : Nat) (hn : 0 < n) (b : List ℚ) :
    ∀ p : List ℚ, p.length < n →
      (chunkRun n p b).1 = (p ++ b).drop (n * ((p ++ b).length / n)) ∧
      (chunkRun n p b).2 = fullChunks n (p ++ b) := by
  induction b with
  | nil =>
    intro p hp
    constructor
    · simp [chunkRun, Nat.div_eq_of_lt, hp]
    · simp [chunkRun, fullChunks, Nat.div_eq_of_lt, hp]
  | cons x rest ih =>
    intro p hp
    have hsplit : p ++ x :: rest = (p ++ [x]) ++ rest := by simp
    by_cases hq : p.length + 1 = n
    · have hclen : (p ++ [x]).length = n := by simp [hq]
      obtain ⟨r1, r2⟩ := ih [] (by simpa using hn)
      simp only [List.nil_append] at r1 r2
      constructor
      · show (chunkRun n p (x :: rest)).1 = _
        rw [hsplit, drop_chunks_cons n (p ++ [x]) rest hclen hn, ← r1]
        simp [chunkRun, hq]
      · show (chunkRun n p (x :: rest)).2 = _
        rw [hsplit, fullChunks_cons n (p ++ [x]) rest hclen hn, ← r2]
        simp [chunkRun, hq]
    · have hlt : (p ++ [x]).length < n := by simp; omega
      obtain ⟨r1, r2⟩ := ih (p ++ [x]) hlt
      rw [← hsplit] at r1 r2
      constructor
      · rw [← r1]; simp [chunkRun, hq]
      · rw [← r2]; simp [chunkRun, hq]

lemma bufferStep_buffer (t : WorkletState) (x : ℚ) :
    (bufferStep t x).buffer = t.buffer.set t.bufferIndex x := by
  obtain ⟨n, buf, i, θ, f, m, a, ms⟩ := t
  by_cases hc : n ≤ i + 1 <;> by_cases hA : a = true <;>
    simp [bufferStep, hc, hA]

lemma bufferStep_indep (t : WorkletState) (x : ℚ) (a : Bool) :
    (bufferStep { t with isActive := a } x).buffer = (bufferStep t x).buffer ∧
    (bufferStep { t with isActive := a } x).bufferIndex =
      (bufferStep t x).bufferIndex := by
  obtain ⟨n, buf, i, θ, f, m, a0, ms⟩ := t
  by_cases hc : n ≤ i + 1 <;> by_cases hA : a = true <;>
    by_cases hA0 : a0 = true <;> simp [bufferStep, hc, hA, hA0]

/-- **C5**: over one `process` call on a well-formed state, with
`all` the pending window contents followed by the incoming block: the
window index ends at `all.length % bufferSize` (reset to `0` at each
fill), the pending window holds exactly the samples past the last
completed chunk, the completed chunks are posted as `processAudio`
copies precisely when the detector is active after this block's
detection step — and per sample, the write into the window happens
unconditionally and identically whatever the activity flag. -/
theorem C5_window_accumulation (s : WorkletState) (b : List ℚ)
    (hwf : wfWorklet s) (hb : b ≠ []) :
    initWorklet.bufferSize = 4096 ∧
    (process s b).bufferIndex =
      (pendingWindow s ++ b).length % s.bufferSize ∧
    pendingWindow (process s b) =
      (pendingWindow s ++ b).drop
        (s.bufferSize * ((pendingWindow s ++ b).length / s.bufferSize)) ∧
    (process s b).msgs = (detectUpdate s b).msgs ++
      (if (detectUpdate s b).isActive = true
        then (fullChunks s.bufferSize (pendingWindow s ++ b)).map WMsg.processAudio
        else []) ∧
    (process s b).isActive = (detectUpdate s b).isActive ∧
    wfWorklet (process s b) ∧
    (∀ (t : WorkletState) (x : ℚ), t.bufferIndex < t.buffer.length →
      (bufferStep t x).buffer.take (t.bufferIndex + 1) =
        t.buffer.take t.bufferIndex ++ [x]) ∧
    (∀ (t : WorkletState) (x : ℚ) (a : Bool),
      (bufferStep { t with isActive := a } x).buffer = (bufferStep t x).buffer ∧
      (bufferStep { t with isActive := a } x).bufferIndex =
        (bufferStep t x).bufferIndex) := by
  obtain ⟨h0, hlen, hidx⟩ := hwf
  have hlb : ¬ b.length = 0 := by simpa using hb
  have hproc : process s b = b.foldl bufferStep (detectUpdate s b) := by
    rw [process, if_neg hlb]
  obtain ⟨d1, d2, d3, _, _⟩ := detectUpdate_fields s b
  have hdw : wfWorklet (detectUpdate s b) :=
    ⟨d3 ▸ h0, by rw [d1, d3]; exact hlen, by rw [d2, d3]; exact hidx⟩
  have hdp : pendingWindow (detectUpdate s b) = pendingWindow s := by
    rw [pendingWindow, d1, d2]; rfl
  obtain ⟨f1, f2, f3, f4⟩ := foldl_bufferStep_spec b (detectUpdate s b) hdw
  rw [hdp, d3] at f1 f2 f3
  have hplen : (pendingWindow s).length = s.bufferIndex := by
    rw [pendingWindow, List.length_take]; exact Nat.min_eq_left (by omega)
  obtain ⟨c1, c2⟩ := chunkRun_spec s.bufferSize h0 b (pendingWindow s) (by omega)
  have hmod := Nat.div_add_mod (pendingWindow s ++ b).length s.bufferSize
  refine ⟨rfl, ?_, ?_, ?_, ?_, ?_, ?_, fun t x a => bufferStep_indep t x a⟩
  · rw [hproc, f2, c1, List.length_drop]
    omega
  · rw [hproc, f1, c1]
  · rw [hproc, f3, c2]
  · rw [hproc]
    exact (foldl_bufferStep_fields b (detectUpdate s b)).1
  · rw [hproc]
    exact f4
  · intro t x ht
    rw [bufferStep_buffer]
    exact take_set_succ t.buffer t.bufferIndex x ht

/-- **C1**: fed any block sequence from the initial state, the detector
activates exactly on a block whose mean absolute amplitude strictly
exceeds the `0.01` threshold (resetting the quiet counter), counts
consecutive quiet blocks otherwise, deactivates exactly on a quiet block
that pushes the counter beyond the hangover limit `30`, and after an
active period (counter `0`) stays active through 30 consecutive silent
blocks, flipping to inactive on the 31st. -/
theorem C1_detector_transitions (bs : List (List ℚ)) (b : List ℚ) (hb : b ≠ []) :
    ((runWorklet initWorklet bs).isActive = false →
      ((process (runWorklet initWorklet bs) b).isActive = true ↔
        1 / 100 < audioLevel b)) ∧
    (1 / 100 < audioLevel b →
      (process (runWorklet initWorklet bs) b).silenceFrames = 0) ∧
    (audioLevel b ≤ 1 / 100 →
      (process (runWorklet initWorklet bs) b).silenceFrames =
        (runWorklet initWorklet bs).silenceFrames + 1) ∧
    ((runWorklet initWorklet bs).isActive = true →
      ((process (runWorklet initWorklet bs) b).isActive = false ↔
        (audioLevel b ≤ 1 / 100 ∧
          30 < (runWorklet initWorklet bs).silenceFrames + 1))) ∧
    ((runWorklet initWorklet bs).isActive = true →
      (runWorklet initWorklet bs).silenceFrames = 0 →
      (∀ k, k ≤ 30 →
        (runWorklet initWorklet (bs ++ List.replicate k [0])).isActive = true) ∧
      (runWorklet initWorklet (bs ++ List.replicate 31 [0])).isActive = false) := by
  have hθ : (runWorklet initWorklet bs).silenceThreshold = 1 / 100 :=
    (runWorklet_config bs initWorklet).1
  have hm : (runWorklet initWorklet bs).maxSilenceFrames = 30 :=
    (runWorklet_config bs initWorklet).2
  have hact := (process_activity (runWorklet initWorklet bs) b hb).1
  have hfr := (process_activity (runWorklet initWorklet bs) b hb).2
  have hchar := detectUpdate_char (runWorklet initWorklet bs) b
  have happ : ∀ l : List (List ℚ), runWorklet initWorklet (bs ++ l) =
      runWorklet (runWorklet initWorklet bs) l := by
    intro l; unfold runWorklet; rw [List.foldl_append]
  refine ⟨?_, ?_, ?_, ?_, ?_⟩
  · intro hIn
    rw [hact]
    constructor
    · intro hT
      by_contra hnlt
      have hle : audioLevel b ≤ 1 / 100 := not_lt.mp hnlt
      have := (hchar.2 (by rw [hθ]; exact hle)).2.mpr (Or.inl hIn)
      rw [hT] at this
      exact Bool.true_eq_false.mp this
    · intro hlt
      exact (hchar.1 (by rw [hθ]; exact hlt)).1
  · intro hlt
    rw [hfr]
    exact (hchar.1 (by rw [hθ]; exact hlt)).2
  · intro hle
    rw [hfr]
    exact (hchar.2 (by rw [hθ]; exact hle)).1
  · intro hA
    rw [hact]
    constructor
    · intro hF
      have hle : audioLevel b ≤ 1 / 100 := by
        by_contra hnle
        have hlt : 1 / 100 < audioLevel b := not_le.mp hnle
        have := (hchar.1 (by rw [hθ]; exact hlt)).1
        rw [hF] at this
        exact Bool.false_eq_true.mp this
      rcases (hchar.2 (by rw [hθ]; exact hle)).2.mp hF with hIn | hGt
      · rw [hA] at hIn
        exact absurd hIn (by simp)
      · rw [hm] at hGt
        exact ⟨hle, hGt⟩
    · rintro ⟨hle, hgt⟩
      exact (hchar.2 (by rw [hθ]; exact hle)).2.mpr (Or.inr (by rw [hm]; exact hgt))
  · intro hA hf
    constructor
    · intro k hk
      rw [happ]
      exact (runWorklet_silent k (runWorklet initWorklet bs) hθ hm hA (by omega)).1
    · rw [happ]
      exact runWorklet_silent31 (runWorklet initWorklet bs) hθ hm hA hf

/-- Concrete instance of `C1_detector_transitions`: the empty history and
the one-sample block `[1]`. -/
theorem C1_detector_transitions_witness :
    (([(1 : ℚ)] : List ℚ) ≠ []) ∧
    (((runWorklet initWorklet []).isActive = false →
      ((process (runWorklet initWorklet []) [(1 : ℚ)]).isActive = true ↔
        1 / 100 < audioLevel [(1 : ℚ)])) ∧
    (1 / 100 < audioLevel [(1 : ℚ)] →
      (process (runWorklet initWorklet []) [(1 : ℚ)]).silenceFrames = 0) ∧
    (audioLevel [(1 : ℚ)] ≤ 1 / 100 →
      (process (runWorklet initWorklet []) [(1 : ℚ)]).silenceFrames =
        (runWorklet initWorklet []).silenceFrames + 1) ∧
    ((runWorklet initWorklet []).isActive = true →
      ((process (runWorklet initWorklet []) [(1 : ℚ)]).isActive = false ↔
        (audioLevel [(1 : ℚ)] ≤ 1 / 100 ∧
          30 < (runWorklet initWorklet []).silenceFrames + 1))) ∧
    ((runWorklet initWorklet []).isActive = true →
      (runWorklet initWorklet []).silenceFrames = 0 →
      (∀ k, k ≤ 30 →
        (runWorklet initWorklet ([] ++ List.replicate k [0])).isActive = true) ∧
      (runWorklet initWorklet ([] ++ List.replicate 31 [0])).isActive = false)) :=
  ⟨by simp, C1_detector_transitions [] [1] (by simp)⟩

/-- Concrete instance of `C5_window_accumulation`: the constructor state
and the one-sample block `[1]`. -/
theorem C5_window_accumulation_witness :
    wfWorklet initWorklet ∧ (([(1 : ℚ)] : List ℚ) ≠ []) ∧
    (initWorklet.bufferSize = 4096 ∧
    (process initWorklet [(1 : ℚ)]).bufferIndex =
      (pendingWindow initWorklet ++ [(1 : ℚ)]).length % initWorklet.bufferSize ∧
    pendingWindow (process initWorklet [(1 : ℚ)]) =
      (pendingWindow initWorklet ++ [(1 : ℚ)]).drop
        (initWorklet.bufferSize *
          ((pendingWindow initWorklet ++ [(1 : ℚ)]).length / initWorklet.bufferSize)) ∧
    (process initWorklet [(1 : ℚ)]).msgs = (detectUpdate initWorklet [(1 : ℚ)]).msgs ++
      (if (detectUpdate initWorklet [(1 : ℚ)]).isActive = true
        then (fullChunks initWorklet.bufferSize
            (pendingWindow initWorklet ++ [(1 : ℚ)])).map WMsg.processAudio
        else []) ∧
    (process initWorklet [(1 : ℚ)]).isActive =
      (detectUpdate initWorklet [(1 : ℚ)]).isActive ∧
    wfWorklet (process initWorklet [(1 : ℚ)]) ∧
    (∀ (t : WorkletState) (x : ℚ), t.bufferIndex < t.buffer.length →
      (bufferStep t x).buffer.take (t.bufferIndex + 1) =
        t.buffer.take t.bufferIndex ++ [x]) ∧
    (∀ (t : WorkletState) (x : ℚ) (a : Bool),
      (bufferStep { t with isActive := a } x).buffer = (bufferStep t x).buffer ∧
      (bufferStep { t with isActive := a } x).bufferIndex =
        (bufferStep t x).bufferIndex)) :=
  ⟨⟨by norm_num [initWorklet], List.length_replicate 4096 0, by norm_num [initWorklet]⟩,
    by simp,
    C5_window_accumulation initWorklet [1]
      ⟨by norm_num [initWorklet], List.length_replicate 4096 0, by norm_num [initWorklet]⟩
      (by simp)⟩

/-! ### Controller lemmas -/

lemma tail_append_singleton_of_ne_nil (l : List Caption) (e : Caption)
    (h : l ≠ []) : (l ++ [e]).tail = l.tail ++ [e] := by
  cases l with
  | nil => exact absurd rfl h
  | cons a t => rfl

/-- The different-speaker branch of `updateCaption` in closed form. -/
lemma updateCaption_append (s : CCState) (text speaker : String)
    (ht : ¬ (text = "" ∨ jsTrim text = ""))
    (he : s.hasCaptionsElement = true)
    (hcs : s.currentSpeaker ≠ some speaker) :
    updateCaption s text speaker =
      { s with currentSpeaker := some speaker,
               captionHistory :=
                 if s.maxHistoryLength < s.captionHistory.length + 1
                  then (s.captionHistory ++
                    [(⟨speaker, jsTrim text⟩ : Caption)]).tail
                  else s.captionHistory ++
                    [(⟨speaker, jsTrim text⟩ : Caption)] } := by
  unfold updateCaption
  rw [if_neg ht, if_neg (by rw [he]; simp), if_pos hcs]
  simp [List.length_append]

/-- The same-speaker branch of `updateCaption` on a non-empty history. -/
lemma updateCaption_overwrite (s : CCState) (text speaker : String)
    (ht : ¬ (text = "" ∨ jsTrim text = ""))
    (he : s.hasCaptionsElement = true)
    (hcs : s.currentSpeaker = some speaker)
    (last : Caption) (hL : s.captionHistory.getLast? = some last) :
    updateCaption s text speaker =
      { s with captionHistory :=
          s.captionHistory.dropLast ++
            [(⟨last.speaker, jsTrim text⟩ : Caption)] } := by
  unfold updateCaption
  rw [if_neg ht, if_neg (by rw [he]; simp), if_neg (by simp [hcs]), hL]

lemma updateCaption_max (s : CCState) (text speaker : String) :
    (updateCaption s text speaker).maxHistoryLength = s.maxHistoryLength := by
  unfold updateCaption
  split
  · rfl
  · split
    · rfl
    · split
      · rfl
      · split <;> rfl

lemma updateCaption_length_le (s : CCState) (text speaker : String)
    (hm : 1 ≤ s.maxHistoryLength)
    (hl : s.captionHistory.length ≤ s.maxHistoryLength) :
    (updateCaption s text speaker).captionHistory.length ≤ s.maxHistoryLength := by
  unfold updateCaption
  split
  · exact hl
  · split
    · exact hl
    · split
      · dsimp only
        split
        · rename_i hgt
          simp only [List.length_tail, List.length_append, List.length_cons,
            List.length_nil]
          omega
        · rename_i hle
          simp only [List.length_append, List.length_cons, List.length_nil] at hle ⊢
          omega
      · split
        · rename_i last hL
          have hne : s.captionHistory ≠ [] := by
            intro hnil
            rw [hnil] at hL
            simp at hL
          have hpos : 0 < s.captionHistory.length := List.length_pos.mpr hne
          simp only [List.length_append, List.length_dropLast, List.length_cons,
            List.length_nil]
          omega
        · simpa using hm

lemma ccStep_bound (s : CCState) (c : CCCmd)
    (hm : 1 ≤ s.maxHistoryLength)
    (hl : s.captionHistory.length ≤ s.maxHistoryLength) :
    (ccStep s c).captionHistory.length ≤ s.maxHistoryLength ∧
    (ccStep s c).maxHistoryLength = s.maxHistoryLength := by
  cases c with
  | update text speaker =>
    exact ⟨updateCaption_length_le s text speaker hm hl,
      updateCaption_max s text speaker⟩
  | speakerStatus speaker =>
    have hred : ccStep s (CCCmd.speakerStatus speaker) =
        updateSpeakerStatus s speaker := rfl
    rw [hred]
    unfold updateSpeakerStatus
    split <;> exact ⟨hl, rfl⟩
  | stopCall =>
    have hred : ccStep s CCCmd.stopCall = stop s := rfl
    rw [hred]
    exact ⟨by simp [stop], rfl⟩

lemma runCC_bound (cs : List CCCmd) :
    ∀ s : CCState, 1 ≤ s.maxHistoryLength →
      s.captionHistory.length ≤ s.maxHistoryLength →
      (runCC s cs).captionHistory.length ≤ s.maxHistoryLength := by
  induction cs with
  | nil => intro s _ hl; exact hl
  | cons c rest ih =>
    intro s hm hl
    obtain ⟨h1, h2⟩ := ccStep_bound s c hm hl
    have hrec := ih (ccStep s c) (h2 ▸ hm) (h2 ▸ h1)
    rw [h2] at hrec
    exact hrec

/-- **C2** fails as stated: with configured maximum `0`, the run
(local,"a"), (local,"b") from the constructor state reaches a transcript
of length `1 > 0` — the first call appends and immediately evicts, the
second hits the same-speaker branch on the now-empty history and pushes
an entry with no eviction. -/
theorem C2_counterexample :
    (runCC (initCC 0)
      [CCCmd.update "a" "local", CCCmd.update "b" "local"]).maxHistoryLength = 0 ∧
    (runCC (initCC 0)
      [CCCmd.update "a" "local",
        CCCmd.update "b" "local"]).captionHistory.length = 1 := by
  decide

/-- **C2 (amended)**: for every configured maximum `m ≥ 1`, every
sequence of controller calls from the constructor state keeps the
transcript length at most `m`; and whenever an append (different
speaker, non-blank text) would exceed capacity, exactly the oldest
entry is removed and the remaining entries keep their order, while an
append within capacity evicts nothing. -/
theorem C2_bounded_fifo (m : Nat) (hm : 1 ≤ m) :
    (∀ cs : List CCCmd, (runCC (initCC m) cs).captionHistory.length ≤ m) ∧
    (∀ (s : CCState) (text speaker : String),
      s.maxHistoryLength = m → ¬ (text = "" ∨ jsTrim text = "") →
      s.hasCaptionsElement = true → s.currentSpeaker ≠ some speaker →
      ((m < s.captionHistory.length + 1 →
        (updateCaption s text speaker).captionHistory =
          s.captionHistory.tail ++ [(⟨speaker, jsTrim text⟩ : Caption)]) ∧
      (s.captionHistory.length + 1 ≤ m →
        (updateCaption s text speaker).captionHistory =
          s.captionHistory ++ [(⟨speaker, jsTrim text⟩ : Caption)]))) := by
  constructor
  · intro cs
    exact runCC_bound cs (initCC m) hm (by simp [initCC])
  · intro s text speaker hsm ht he hcs
    rw [updateCaption_append s text speaker ht he hcs]
    constructor
    · intro hgt
      have hne : s.captionHistory ≠ [] := by
        intro hnil
        rw [hnil] at hgt
        simp at hgt
        omega
      show (if s.maxHistoryLength < s.captionHistory.length + 1
          then (s.captionHistory ++ [(⟨speaker, jsTrim text⟩ : Caption)]).tail
          else s.captionHistory ++ [(⟨speaker, jsTrim text⟩ : Caption)]) =
        s.captionHistory.tail ++ [(⟨speaker, jsTrim text⟩ : Caption)]
      rw [if_pos (by rw [hsm]; exact hgt)]
      exact tail_append_singleton_of_ne_nil _ _ hne
    · intro hle
      show (if s.maxHistoryLength < s.captionHistory.length + 1
          then (s.captionHistory ++ [(⟨speaker, jsTrim text⟩ : Caption)]).tail
          else s.captionHistory ++ [(⟨speaker, jsTrim text⟩ : Caption)]) =
        s.captionHistory ++ [(⟨speaker, jsTrim text⟩ : Caption)]
      rw [if_neg (by rw [hsm]; omega)]

/-- Concrete instance of `C2_bounded_fifo`: maximum `1`, one append. -/
theorem C2_bounded_fifo_witness :
    1 ≤ 1 ∧
    (runCC (initCC 1) [CCCmd.update "a" "local"]).captionHistory.length ≤ 1 :=
  ⟨Nat.le_refl 1, (C2_bounded_fifo 1 (Nat.le_refl 1)).1 [CCCmd.update "a" "local"]⟩

/-- **C3** fails as stated: after (local,"hi") and
`updateSpeakerStatus('remote')`, the single transcript entry has speaker
`local`; the non-blank fragment ("yo", local) — whose speaker equals the
last entry's speaker — is nevertheless *appended* as a new entry,
because the branch tests the tracked current speaker (now `remote`),
not the last entry's speaker. -/
theorem C3_counterexample :
    (runCC (initCC 5) [CCCmd.update "hi" "local",
        CCCmd.speakerStatus "remote"]).captionHistory =
      [(⟨"local", "hi"⟩ : Caption)] ∧
    (runCC (initCC 5) [CCCmd.update "hi" "local", CCCmd.speakerStatus "remote",
        CCCmd.update "yo" "local"]).captionHistory =
      [(⟨"local", "hi"⟩ : Caption), (⟨"local", "yo"⟩ : Caption)] := by
  decide

/-- **C3 (amended)**: with a non-empty transcript and a non-blank
fragment, `updateCaption` branches on the *tracked current speaker*: a
fragment whose speaker differs from it appends a new entry (evicting on
overflow), and a fragment whose speaker equals it overwrites the last
entry's text in place — keeping that entry's original speaker label and
adding no entry.  This coincides with branching on the last entry's
speaker only while the tracked speaker and the last entry agree. -/
theorem C3_branch_on_tracked_speaker (s : CCState) (text speaker : String)
    (hne : s.captionHistory ≠ [])
    (ht : ¬ (text = "" ∨ jsTrim text = ""))
    (he : s.hasCaptionsElement = true) :
    (s.currentSpeaker ≠ some speaker →
      (updateCaption s text speaker).captionHistory =
        (if s.maxHistoryLength < s.captionHistory.length + 1
          then (s.captionHistory ++ [(⟨speaker, jsTrim text⟩ : Caption)]).tail
          else s.captionHistory ++ [(⟨speaker, jsTrim text⟩ : Caption)])) ∧
    (s.currentSpeaker = some speaker →
      (∀ last, s.captionHistory.getLast? = some last →
        (updateCaption s text speaker).captionHistory =
          s.captionHistory.dropLast ++
            [(⟨last.speaker, jsTrim text⟩ : Caption)]) ∧
      (updateCaption s text speaker).captionHistory.length =
        s.captionHistory.length) := by
  constructor
  · intro hcs
    rw [updateCaption_append s text speaker ht he hcs]
  · intro hcs
    obtain ⟨last, hL⟩ := Option.isSome_iff_exists.mp
      (List.getLast?_isSome.mpr hne)
    rw [updateCaption_overwrite s text speaker ht he hcs last hL]
    constructor
    · intro l hl
      rw [hL] at hl
      cases hl
      rfl
    · have hpos : 0 < s.captionHistory.length := List.length_pos.mpr hne
      show (s.captionHistory.dropLast ++
        [(⟨last.speaker, jsTrim text⟩ : Caption)]).length = _
      simp only [List.length_append, List.length_dropLast, List.length_cons,
        List.length_nil]
      omega

/-- Concrete instance of `C3_branch_on_tracked_speaker`: transcript
[(local,"hi")] with tracked speaker `local`, fragment ("yo", remote). -/
theorem C3_branch_on_tracked_speaker_witness :
    ((runCC (initCC 5) [CCCmd.update "hi" "local"]).captionHistory ≠ []) ∧
    (¬ (("yo" : String) = "" ∨ jsTrim "yo" = "")) ∧
    ((runCC (initCC 5) [CCCmd.update "hi" "local"]).hasCaptionsElement = true) ∧
    (((runCC (initCC 5) [CCCmd.update "hi" "local"]).currentSpeaker ≠
        some "remote" →
      (updateCaption (runCC (initCC 5) [CCCmd.update "hi" "local"]) "yo"
          "remote").captionHistory =
        (if (runCC (initCC 5) [CCCmd.update "hi" "local"]).maxHistoryLength <
            (runCC (initCC 5)
              [CCCmd.update "hi" "local"]).captionHistory.length + 1
          then ((runCC (initCC 5) [CCCmd.update "hi" "local"]).captionHistory ++
            [(⟨"remote", jsTrim "yo"⟩ : Caption)]).tail
          else (runCC (initCC 5) [CCCmd.update "hi" "local"]).captionHistory ++
            [(⟨"remote", jsTrim "yo"⟩ : Caption)])) ∧
    ((runCC (initCC 5) [CCCmd.update "hi" "local"]).currentSpeaker =
        some "remote" →
      (∀ last, (runCC (initCC 5)
          [CCCmd.update "hi" "local"]).captionHistory.getLast? = some last →
        (updateCaption (runCC (initCC 5) [CCCmd.update "hi" "local"]) "yo"
            "remote").captionHistory =
          (runCC (initCC 5)
              [CCCmd.update "hi" "local"]).captionHistory.dropLast ++
            [(⟨last.speaker, jsTrim "yo"⟩ : Caption)]) ∧
      (updateCaption (runCC (initCC 5) [CCCmd.update "hi" "local"]) "yo"
          "remote").captionHistory.length =
        (runCC (initCC 5) [CCCmd.update "hi" "local"]).captionHistory.length)) :=
  ⟨by decide, by decide, by decide,
    C3_branch_on_tracked_speaker (runCC (initCC 5) [CCCmd.update "hi" "local"])
      "yo" "remote" (by decide) (by decide) (by decide)⟩

/-- **C4**: from the constructor state with maximum `2`, the inputs
(local,"hi"), (local,"hi there"), (remote,"hello") produce exactly
[(local,"hi there"), (remote,"hello")]: the second input overwrites the
first entry's text (same tracked speaker), the third appends. -/
theorem C4_example_run :
    (runCC (initCC 2) [CCCmd.update "hi" "local", CCCmd.update "hi there" "local",
        CCCmd.update "hello" "remote"]).captionHistory =
      [(⟨"local", "hi there"⟩ : Caption), (⟨"remote", "hello"⟩ : Caption)] := by
  decide

/-- **C6**: `initialize` is total with a `Bool` result (in the model the
function type itself rules out an escaping exception or any other typed
error): it returns `true` exactly when no internal setup step throws —
the container DOM work, the local `start()` when the recognition API is
supported, and (only when a remote stream exists) the remote audio
plumbing, the remote `start()`, and the worklet setup when the worklet
is supported.  On `true` the controller is active; on `false` the active
flag is left as it was. -/
theorem C6_init_boolean_result (env : InitEnv) (hasRemoteStream : Bool)
    (s : CCState) :
    ((initializeCaptionSystem env hasRemoteStream s).1 = true ↔
      ¬ (env.showContainerThrows = true ∨
        (env.srSupported = true ∧ env.localStartThrows = true) ∨
        (hasRemoteStream = true ∧
          (env.remoteAudioSetupThrows = true ∨
            (env.srSupported = true ∧
              (env.remoteStartThrows = true ∨
                (env.audioWorkletSupported = true ∧
                  env.workletSetupThrows = true))))))) ∧
    ((initializeCaptionSystem env hasRemoteStream s).1 = true →
      (initializeCaptionSystem env hasRemoteStream s).2.isActive = true) ∧
    ((initializeCaptionSystem env hasRemoteStream s).1 = false →
      (initializeCaptionSystem env hasRemoteStream s).2.isActive = s.isActive) := by
  obtain ⟨a, b, c, d, e, f, g⟩ := env
  cases a <;> cases b <;> cases c <;> cases d <;> cases e <;> cases f <;>
    cases g <;> cases hasRemoteStream <;>
      simp [initializeCaptionSystem, initializeSpeechRecognition,
        initializeRemoteTranscription]

/-- Concrete instance of `C6_init_boolean_result`: an environment where
no step throws, remote stream present. -/
theorem C6_init_boolean_result_witness :
    (initializeCaptionSystem
        { showContainerThrows := false, srSupported := true,
          localStartThrows := false, remoteAudioSetupThrows := false,
          remoteStartThrows := false, audioWorkletSupported := false,
          workletSetupThrows := false } true (initCC 5)).1 = true ∧
    (initializeCaptionSystem
        { showContainerThrows := false, srSupported := true,
          localStartThrows := false, remoteAudioSetupThrows := false,
          remoteStartThrows := false, audioWorkletSupported := false,
          workletSetupThrows := false } true (initCC 5)).2.isActive = true :=
  ⟨by decide,
    (C6_init_boolean_result
      { showContainerThrows := false, srSupported := true,
        localStartThrows := false, remoteAudioSetupThrows := false,
        remoteStartThrows := false, audioWorkletSupported := false,
        workletSetupThrows := false } true (initCC 5)).2.1 (by decide)⟩

/-- **C7** fails as stated for the local session: in the active
controller state produced by a clean `initialize`, a local `onerror`
with the permanent denial `'not-allowed'` performs an immediate restart
attempt (the local handler only filters `'no-speech'`). -/
theorem C7_counterexample :
    ((initializeCaptionSystem
        { showContainerThrows := false, srSupported := true,
          localStartThrows := false, remoteAudioSetupThrows := false,
          remoteStartThrows := false, audioWorkletSupported := false,
          workletSetupThrows := false } true (initCC 5)).2.isActive = true) ∧
    ((onLocalRecognitionError
        (initializeCaptionSystem
          { showContainerThrows := false, srSupported := true,
            localStartThrows := false, remoteAudioSetupThrows := false,
            remoteStartThrows := false, audioWorkletSupported := false,
            workletSetupThrows := false } true (initCC 5)).2
        (initializeCaptionSystem
          { showContainerThrows := false, srSupported := true,
            localStartThrows := false, remoteAudioSetupThrows := false,
            remoteStartThrows := false, audioWorkletSupported := false,
            workletSetupThrows := false } true (initCC 5)).2
        "not-allowed" false).2.immediateStart = true) := by
  decide

/-- **C7 (amended)**: the permanent-denial filter exists only on the
remote session — a remote error `'not-allowed'` (or `'audio-capture'`)
produces no restart attempt and leaves the state untouched — while the
local handler suppresses restart only for `'no-speech'`, so a local
`'not-allowed'` in an active state with a session does attempt a
restart. -/
theorem C7_denial_no_remote_retry (sNow sLater : CCState) (err : String)
    (t : Bool) (h : err = "not-allowed" ∨ err = "audio-capture") :
    (onRemoteRecognitionError sNow sLater err t).2 =
      { immediateStart := false, delayedStart := false } ∧
    (onRemoteRecognitionError sNow sLater err t).1 = sNow ∧
    (∀ (sN sL : CCState) (t2 : Bool), sN.isActive = true →
      sN.hasSpeechRecognition = true →
      (onLocalRecognitionError sN sL "not-allowed" t2).2.immediateStart = true) := by
  refine ⟨?_, ?_, ?_⟩
  · rcases h with h | h <;> simp [onRemoteRecognitionError, h]
  · rcases h with h | h <;> simp [onRemoteRecognitionError, h]
  · intro sN sL t2 hA hS
    rw [onLocalRecognitionError, if_neg (by decide)]
    rw [restartSpeechRecognition, if_pos ⟨hA, hS⟩]
    cases t2 <;> rfl

/-- Concrete instance of `C7_denial_no_remote_retry` at
`err := "not-allowed"`. -/
theorem C7_denial_no_remote_retry_witness :
    (("not-allowed" : String) = "not-allowed" ∨
      ("not-allowed" : String) = "audio-capture") ∧
    ((onRemoteRecognitionError (initCC 5) (initCC 5) "not-allowed" false).2 =
      { immediateStart := false, delayedStart := false } ∧
    (onRemoteRecognitionError (initCC 5) (initCC 5) "not-allowed" false).1 =
      initCC 5 ∧
    (∀ (sN sL : CCState) (t2 : Bool), sN.isActive = true →
      sN.hasSpeechRecognition = true →
      (onLocalRecognitionError sN sL "not-allowed" t2).2.immediateStart = true)) :=
  ⟨Or.inl rfl,
    C7_denial_no_remote_retry (initCC 5) (initCC 5) "not-allowed" false
      (Or.inl rfl)⟩

/-- **C8**: a local recognition error `'no-speech'` is ignored — the
handler returns before any restart, performing no start attempt and
leaving the controller state exactly as it was. -/
theorem C8_no_speech_ignored (sNow sLater : CCState) (t : Bool) :
    onLocalRecognitionError sNow sLater "no-speech" t =
      (sNow, { immediateStart := false, delayedStart := false }) := by
  rw [onLocalRecognitionError, if_pos rfl]

/-- **C9**: `stop()` clears the active flag (and the constructor starts
with it clear); with the flag clear at call time neither restart path
performs any `start()` invocation, and even when the restart was entered
while active, the delayed retry re-checks the flag and performs no
`start()` once it is clear. -/
theorem C9_inactive_never_starts (sNow sLater : CCState) (t : Bool) :
    ((stop sNow).isActive = false) ∧
    (∀ m : Nat, (initCC m).isActive = false) ∧
    (sNow.isActive = false →
      restartSpeechRecognition sNow sLater t =
        { immediateStart := false, delayedStart := false } ∧
      restartRemoteSpeechRecognition sNow sLater t =
        { immediateStart := false, delayedStart := false }) ∧
    (sLater.isActive = false →
      (restartSpeechRecognition sNow sLater t).delayedStart = false ∧
      (restartRemoteSpeechRecognition sNow sLater t).delayedStart = false) := by
  refine ⟨rfl, fun m => rfl, ?_, ?_⟩
  · intro h
    have hc1 : ¬ (sNow.isActive = true ∧ sNow.hasSpeechRecognition = true) := by
      rw [h]; simp
    have hc2 : ¬ (sNow.isActive = true ∧
        sNow.hasRemoteSpeechRecognition = true) := by
      rw [h]; simp
    exact ⟨by rw [restartSpeechRecognition, if_neg hc1],
      by rw [restartRemoteSpeechRecognition, if_neg hc2]⟩
  · intro h
    constructor
    · rw [restartSpeechRecognition]
      split
      · split
        · rw [h]
        · rfl
      · rfl
    · rw [restartRemoteSpeechRecognition]
      split
      · split
        · rw [h]
        · rfl
      · rfl

/-- Concrete instance of `C9_inactive_never_starts`: the state after
`stop()` from the constructor state. -/
theorem C9_inactive_never_starts_witness :
    (stop (initCC 5)).isActive = false ∧
    restartSpeechRecognition (stop (initCC 5)) (stop (initCC 5)) true =
      { immediateStart := false, delayedStart := false } ∧
    (restartRemoteSpeechRecognition (stop (initCC 5)) (stop (initCC 5))
      true).delayedStart = false :=
  ⟨by decide,
    ((C9_inactive_never_starts (stop (initCC 5)) (stop (initCC 5))
      true).2.2.1 (by decide)).1,
    ((C9_inactive_never_starts (stop (initCC 5)) (stop (initCC 5))
      true).2.2.2 (by decide)).2⟩

/-- **C10**: `updateCaption` with text whose JS trim is empty (empty or
whitespace-only) returns before touching anything: the whole controller
state — transcript and tracked speaker included — is unchanged. -/
theorem C10_blank_text_noop (s : CCState) (text speaker : String)
    (h : jsTrim text = "") :
    updateCaption s text speaker = s := by
  rw [updateCaption, if_pos (Or.inr h)]

/-- Concrete instance of `C10_blank_text_noop`: three spaces. -/
theorem C10_blank_text_noop_witness :
    jsTrim "   " = "" ∧ updateCaption (initCC 5) "   " "local" = initCC 5 :=
  ⟨by decide, C10_blank_text_noop (initCC 5) "   " "local" (by decide)⟩

end CursorSoftphone
